import Mathlib

/-!
Shallow embedding of the HACCP inspection dashboard (src/app.py): the
tabular import pipeline `process_and_upload`, the read path `load_data`, the
remediation update performed by the act_form handler, and
`extract_drive_file_id`.

Cells of an uploaded tabular file are modelled as `Option String`: `none` is a
missing value (pandas NaN) and `some s` carries the text representation of the
cell value (what Python `str(...)` produces for it).  The record store backing
the spreadsheet is a list of rows of strings.  External library behaviour that
the code calls into (pandas date parsing, gspread find/update) is modelled by
explicit Lean functions documented at their definitions.
-/

namespace Haccp

/-! ### Character-list string utilities (Python `in`, `split`, `strip`, `replace`) -/

/-- Is the first list a prefix of the second (character by character)? -/
def chPfx : List Char → List Char → Bool
  | [], _ => true
  | _ :: _, [] => false
  | a :: as, b :: bs => a == b && chPfx as bs

/-- Does the second list contain the first as a contiguous sublist?  Models the
Python substring test `needle in hay`. -/
def chSub (needle : List Char) : List Char → Bool
  | [] => needle.isEmpty
  | b :: bs => chPfx needle (b :: bs) || chSub needle bs

/-- Python `needle in hay` on strings. -/
def strHas (hay needle : String) : Bool := chSub needle.data hay.data

/-- Characters before the first occurrence of `sep` (the whole list when `sep`
does not occur): Python `hay.split(sep)[0]`. -/
def chBefore (sep : List Char) : List Char → List Char
  | [] => []
  | b :: bs => if chPfx sep (b :: bs) then [] else b :: chBefore sep bs

/-- Characters after the first occurrence of `sep` (empty when `sep` does not
occur). -/
def chAfter (sep : List Char) : List Char → List Char
  | [] => []
  | b :: bs => if chPfx sep (b :: bs) then (b :: bs).drop sep.length else chAfter sep bs

/-- String form of `chBefore`. -/
def beforeFirst (sep hay : String) : String := ⟨chBefore sep.data hay.data⟩

/-- String form of `chAfter`. -/
def afterFirst (sep hay : String) : String := ⟨chAfter sep.data hay.data⟩

/-- Python `hay.split(sep)[1]` when `sep` occurs in `hay`: the segment after the
first occurrence of `sep`, truncated at the following occurrence of `sep`. -/
def pyBetween (sep hay : String) : String := beforeFirst sep (afterFirst sep hay)

/-- Python `s.replace(".", "-")`. -/
def replaceDots (s : String) : String :=
  ⟨s.data.map (fun c => if c == '.' then '-' else c)⟩

/-- Whitespace recognised by the model of Python `str.strip`. -/
def isWs (c : Char) : Bool := c == ' ' || c == '\t' || c == '\n' || c == '\r'

/-- Characters with leading and trailing whitespace removed. -/
def chTrim (l : List Char) : List Char :=
  ((l.dropWhile isWs).reverse.dropWhile isWs).reverse

/-- Model of Python `s.strip()`. -/
def sTrim (s : String) : String := ⟨chTrim s.data⟩

/-- Split a character list on a single separator character. -/
def chSplitOn (c : Char) : List Char → List (List Char)
  | [] => [[]]
  | b :: bs =>
    if b == c then [] :: chSplitOn c bs
    else
      match chSplitOn c bs with
      | [] => [[b]]
      | seg :: rest => (b :: seg) :: rest

/-! ### Decimal rendering of naturals (Python f-string of an int) -/

/-- The character of a decimal digit. -/
def digitChar (d : Nat) : Char :=
  if d == 0 then '0' else if d == 1 then '1' else if d == 2 then '2'
  else if d == 3 then '3' else if d == 4 then '4' else if d == 5 then '5'
  else if d == 6 then '6' else if d == 7 then '7' else if d == 8 then '8' else '9'

/-- Inverse of `digitChar` on decimal digits. -/
def charDigit (c : Char) : Nat :=
  if c == '0' then 0 else if c == '1' then 1 else if c == '2' then 2
  else if c == '3' then 3 else if c == '4' then 4 else if c == '5' then 5
  else if c == '6' then 6 else if c == '7' then 7 else if c == '8' then 8 else 9

/-- Little-endian decimal digits of `n`, with explicit fuel (the fuel `n` used
by `natStr` always suffices). -/
def digitsRevAux : Nat → Nat → List Nat
  | 0, n => [n % 10]
  | f + 1, n => if n < 10 then [n] else (n % 10) :: digitsRevAux f (n / 10)

/-- Value of a little-endian decimal digit list. -/
def unDigits : List Nat → Nat
  | [] => 0
  | d :: ds => d + 10 * unDigits ds

/-- Decimal rendering of a natural number, as Python `str(n)` / an f-string
produces it. -/
def natStr (n : Nat) : String := ⟨(digitsRevAux n n).reverse.map digitChar⟩

/-- Value of a nonempty all-digit character list; `none` otherwise. -/
def digitsToNat (l : List Char) : Option Nat :=
  if l.isEmpty then none
  else if l.all (fun c => c.isDigit) then
    some (l.foldl (fun a c => a * 10 + (c.toNat - 48)) 0)
  else none

/-! ### Dates: model of `pandas.to_datetime` on the inputs this app produces -/

/-- A calendar date. -/
structure Ymd where
  y : Nat
  m : Nat
  d : Nat
deriving DecidableEq, Repr, Inhabited

/-- Gregorian leap year. -/
def isLeap (y : Nat) : Bool := (y % 4 == 0 && y % 100 != 0) || y % 400 == 0

/-- Days in a month. -/
def daysInMonth (y m : Nat) : Nat :=
  if m == 2 then (if isLeap y then 29 else 28)
  else if m == 4 || m == 6 || m == 9 || m == 11 then 30
  else 31

/-- Model of a successful `pandas.to_datetime` parse, restricted to the
dash-separated year-month-day texts relevant to this program (the importer
always dash-normalises first).  Components must be digits, denote a valid
calendar day, and lie inside the pandas `Timestamp` year range 1678..2261;
anything else is a parse failure (`None` / `NaT`). -/
def pdParseYmd (s : String) : Option Ymd :=
  match (chSplitOn '-' s.data).map digitsToNat with
  | [some y, some m, some d] =>
    if 1678 ≤ y && y ≤ 2261 && 1 ≤ m && m ≤ 12 && 1 ≤ d && d ≤ daysInMonth y m
    then some ⟨y, m, d⟩ else none
  | _ => none

/-- Two-digit zero padding (`strftime` `%m` / `%d`). -/
def pad2 (n : Nat) : String := if n < 10 then "0" ++ natStr n else natStr n

/-- `strftime("%Y-%m-%d")` for an in-range date. -/
def fmtYmd (d : Ymd) : String := natStr d.y ++ "-" ++ pad2 d.m ++ "-" ++ pad2 d.d

/-- The importer date normalisation: replace every `.` with `-`, attempt a
parse, format as ISO on success and produce the empty string on failure
(the `try`/`except` around `pd.to_datetime(...).strftime(...)`). -/
def dNorm (s : String) : String :=
  match pdParseYmd (replaceDots s) with
  | some d => fmtYmd d
  | none => ""

/-! ### Uploaded file rows and the importer (`process_and_upload`) -/

/-- One cell of an uploaded file: `none` is NaN, `some s` the text of the
value. -/
abbrev Cell := Option String

/-- Python `str(...)` of a cell value (`str(nan) = "nan"`). -/
def cellStr (c : Cell) : String :=
  match c with
  | some s => s
  | none => "nan"

/-- The cell of a row at a column index (rows of a frame all have the full
width; a structurally missing position is NaN). -/
def cellAt (row : List Cell) (i : Nat) : Cell := (row.get? i).getD none

/-- The column label a header cell yields: pandas names a missing header cell
`Unnamed: i`. -/
def colLabel (i : Nat) (c : Cell) : String :=
  match c with
  | some s => s
  | none => "Unnamed: " ++ natStr i

/-- Column labels obtained from the row used as the header. -/
def headerCols (row : List Cell) : List String :=
  row.enum.map (fun ic => colLabel ic.1 ic.2)

/-- The header scan test on one row:
`row.astype(str).str.contains("점검일").any() or ... "번호" ...`. -/
def rowMatches (row : List Cell) : Bool :=
  row.any (fun c => strHas (cellStr c) "점검일" || strHas (cellStr c) "번호")

/-- Index of the first element satisfying `p`. -/
def firstIdx {α : Type} (p : α → Bool) : List α → Option Nat
  | [] => none
  | a :: rest => if p a then some 0 else (firstIdx p rest).map (fun k => k + 1)

/-- The header discovery of `process_and_upload`.  The initial
`pd.read_csv`/`pd.read_excel` uses its default `header=0`, so the first file
row becomes the frame columns and `df_raw.iterrows()` scans only the rows after
it; index `j` of the scan corresponds to file row `j + 1`. -/
def scanHeader (fileRows : List (List Cell)) : Option Nat :=
  firstIdx rowMatches (fileRows.drop 1)

/-- Resolved source column index for each of the six required roles. -/
structure ColMap where
  date : Nat
  issue : Nat
  dept : Nat
  status : Nat
  action : Nat
  complete : Nat
deriving DecidableEq, Repr

/-- The column mapping of `process_and_upload`: each role is the first column
label containing its token(s); failure of any role aborts with the (single,
fixed) required-column error. -/
def mapColumns (cols : List String) : Option ColMap :=
  match firstIdx (fun l => strHas l "점검일") cols,
      firstIdx (fun l => strHas l "개선 필요사항" || strHas l "내용") cols,
      firstIdx (fun l => strHas l "관리부서" || strHas l "담당") cols,
      firstIdx (fun l => strHas l "진행상태") cols,
      firstIdx (fun l => strHas l "개선내용") cols,
      firstIdx (fun l => strHas l "개선완료일") cols with
  | some a, some b, some c, some d, some e, some f => some ⟨a, b, c, d, e, f⟩
  | _, _, _, _, _, _ => none

/-- A canonical inspection record as built by the importer loop. -/
structure Record where
  id : String
  insDate : String
  location : String
  issue : String
  owner : String
  status : String
  action : String
  complete : String
  photoBefore : String
  photoAfter : String
deriving DecidableEq, Repr, Inhabited

/-- The batch import identifier `f"IMPORTED_{base_ts}_{i}"`. -/
def mkId (ts i : Nat) : String := "IMPORTED_" ++ natStr ts ++ "_" ++ natStr i

/-- One iteration of the importer loop at frame index `i`: a row whose date
cell is NaN is skipped (`continue`); otherwise a record is emitted. -/
def normalizeRow (c : ColMap) (ts i : Nat) (row : List Cell) : Option Record :=
  match cellAt row c.date with
  | none => none
  | some d =>
    let rawIssue := cellStr (cellAt row c.issue)
    some
      { id := mkId ts i
        insDate := dNorm d
        location :=
          if strHas rawIssue "\n" then sTrim (beforeFirst "\n" rawIssue) else "기타"
        issue := rawIssue
        owner := cellStr (cellAt row c.dept)
        status := sTrim (cellStr (cellAt row c.status))
        action := (cellAt row c.action).getD ""
        complete := dNorm (cellStr (cellAt row c.complete))
        photoBefore := ""
        photoAfter := "" }

/-- The importer loop over the data rows, threading the frame row index. -/
def normalizeRows (c : ColMap) (ts : Nat) : Nat → List (List Cell) → List Record
  | _, [] => []
  | i, row :: rest =>
    match normalizeRow c ts i row with
    | none => normalizeRows c ts (i + 1) rest
    | some r => r :: normalizeRows c ts (i + 1) rest

/-- The canonical column order of `final_df`. -/
def canonHeader : List String :=
  ["ID", "일시", "공정", "개선 필요사항", "담당자", "진행상태", "개선내용", "개선완료일",
    "사진_전", "사진_후"]

/-- A record as the row appended to the sheet. -/
def recordToRow (r : Record) : List String :=
  [r.id, r.insDate, r.location, r.issue, r.owner, r.status, r.action, r.complete,
    r.photoBefore, r.photoAfter]

/-- The fixed error text shown when any required column is missing. -/
def requiredColsMsg : String :=
  "필수 컬럼 누락(점검일/개선 필요사항/관리부서/진행상태/개선내용/개선완료일)"

/-- Outcome of one `process_and_upload` call.  `headerNotFound` and
`requiredColumnMissing` are the two reported aborts; `emptyBatchError` is the
uncaught pandas `KeyError` raised by `final_df[[...]]` when the normalized
batch is empty (no success message is ever shown on that path);
`uploaded n` is the success report of `n` rows. -/
inductive ImportResult where
  | headerNotFound
  | requiredColumnMissing (msg : String)
  | emptyBatchError
  | uploaded (n : Nat)
deriving DecidableEq, Repr

/-- The import pipeline of `process_and_upload` after the file has been read
into rows: header scan over the default-header frame, re-read with
`header=j` (labels taken from file row `j`, data from the rows after it),
column mapping, per-row normalization, then the replace-or-append commit
(`ws.update` when the store holds at most one row, `ws.append_rows`
otherwise).  Returns the outcome and the resulting store content. -/
def process_and_upload (ts : Nat) (fileRows : List (List Cell))
    (store : List (List String)) : ImportResult × List (List String) :=
  match scanHeader fileRows with
  | none => (.headerNotFound, store)
  | some j =>
    match mapColumns (headerCols ((fileRows.get? j).getD [])) with
    | none => (.requiredColumnMissing requiredColsMsg, store)
    | some cm =>
      let recs := normalizeRows cm ts 0 (fileRows.drop (j + 1))
      if recs.isEmpty then (.emptyBatchError, store)
      else if store.length ≤ 1 then
        (.uploaded recs.length, canonHeader :: recs.map recordToRow)
      else
        (.uploaded recs.length, store ++ recs.map recordToRow)

/-! ### The remediation update (act_form handler) -/

/-- Write `v` at position `i` of a sheet row, padding with empty cells when the
row is shorter (spreadsheet cell updates address cells positionally). -/
def setIdx : List String → Nat → String → List String
  | [], 0, v => [v]
  | [], n + 1, v => "" :: setIdx [] n v
  | _ :: t, 0, v => v :: t
  | h :: t, n + 1, v => h :: setIdx t n v

/-- The four `ws.update_cell` calls of the act_form handler on the located row
(1-indexed sheet columns 7, 8, 6 and conditionally 10; here 0-indexed 6, 7, 5,
9).  The after-photo cell is written only when a photo id was produced. -/
def applyRemediation (row : List String) (atxt adt photo : String) : List String :=
  if photo == "" then setIdx (setIdx (setIdx row 6 atxt) 7 adt) 5 "완료"
  else setIdx (setIdx (setIdx (setIdx row 6 atxt) 7 adt) 5 "완료") 9 photo

/-- Replace the row at index `n` by its image under `f`. -/
def modifyAt (f : List String → List String) : Nat → List (List String) → List (List String)
  | _, [] => []
  | 0, row :: rest => f row :: rest
  | n + 1, row :: rest => row :: modifyAt f n rest

/-- Model of gspread `ws.find(q)`: the (row, column) position of the first cell
whose full value equals `q`, scanning rows top-down and each row left to right;
0-indexed here (the sheet API is 1-indexed). -/
def wsFind0 (q : String) : List (List String) → Option (Nat × Nat)
  | [] => none
  | row :: rest =>
    match firstIdx (fun x => x == q) row with
    | some c => some (0, c)
    | none => (wsFind0 q rest).map (fun rc => (rc.1 + 1, rc.2))

/-- The act_form update: find the cell holding the selected id and rewrite the
four remediation cells of that row; when no cell matches, the exception
handler reports a failure and nothing is written. -/
def actFormUpdate (store : List (List String)) (q atxt adt photo : String) :
    Option (List (List String)) :=
  (wsFind0 q store).map
    (fun rc => modifyAt (fun rw => applyRemediation rw atxt adt photo) rc.1 store)

/-- The text of the store cell at 0-indexed row `i`, column `j` (empty for a
position outside the stored content, as a sheet read yields). -/
def cellVal (st : List (List String)) (i j : Nat) : String :=
  (((st.get? i).getD []).get? j).getD ""

/-! ### The read path (`load_data`) -/

/-- The sentinel the read path substitutes for missing or unparseable dates:
`fillna(pd.Timestamp("1900-01-01"))`. -/
def sentinel : Ymd := ⟨1900, 1, 1⟩

/-- Date of one stored record as `load_data` computes it: replace `.` with
`-`, strip, coerce-parse, and fall back to the 1900-01-01 sentinel. -/
def loadDate (s : String) : Ymd := (pdParseYmd (sTrim (replaceDots s))).getD sentinel

/-- A record as it sits in the loaded frame, with the derived date (from which
the Year and Month dashboard columns are its `y` and `m` fields). -/
structure LoadedRow where
  stored : Record
  date : Ymd
deriving DecidableEq, Repr

/-- Date enrichment of one stored record. -/
def enrichRow (r : Record) : LoadedRow := ⟨r, loadDate r.insDate⟩

/-- The `load_data` frame transformation: derive the date columns, then keep
only rows whose issue text is nonblank after stripping. -/
def load_data (rs : List Record) : List LoadedRow :=
  (rs.map enrichRow).filter (fun e => sTrim e.stored.issue != "")

/-! ### `extract_drive_file_id` -/

/-- A Python value passed to `extract_drive_file_id`: a string, or anything
that fails the `isinstance(link_or_id, str)` test. -/
inductive PyVal where
  | ofStr (s : String)
  | nonStr
deriving DecidableEq, Repr

/-- `extract_drive_file_id` from src/app.py, line for line: non-strings and
blank strings yield `None`; a bare identifier is returned verbatim; a
`drive.google.com` link is cut at `/d/.../` or `id=...&` with Python
`split(sep)[1]` semantics. -/
def extract_drive_file_id (v : PyVal) : Option String :=
  match v with
  | .nonStr => none
  | .ofStr link =>
    let s := sTrim link
    if s.data.isEmpty then none
    else if !strHas s "drive.google.com" && !strHas s "/" && !strHas s " "
        && 15 ≤ s.data.length then some s
    else if strHas s "drive.google.com" then
      if strHas s "/d/" then some (beforeFirst "/" (pyBetween "/d/" s))
      else if strHas s "id=" then some (beforeFirst "&" (pyBetween "id=" s))
      else none
    else none

/-- The id-parameter extraction exactly as the claim words it: the substring
between `id=` and the next `&`. -/
def specIdCut (s : String) : String := beforeFirst "&" (afterFirst "id=" s)

/-! ### Concrete fixtures used by the witnesses and counterexamples -/

/-- Example header row: marker column plus the six required labels. -/
def hdrRowEx : List Cell :=
  [some "번호", some "점검일", some "개선 필요사항", some "담당", some "진행상태",
    some "개선내용", some "개선완료일"]

/-- The column map `mapColumns` resolves for `headerCols hdrRowEx`. -/
def cmEx : ColMap := ⟨1, 2, 3, 4, 5, 6⟩

/-- A file whose header (with both markers) is its first row, followed by one
data row without markers. -/
def rowsC1a : List (List Cell) :=
  [[some "번호", some "점검일", some "내용"],
    [some "1", some "2024-01-01", some "정리정돈"]]

/-- A file with a title row, then the header row, then one data row. -/
def rowsC1b : List (List Cell) :=
  [[some "위생점검 실행과제서"],
    hdrRowEx,
    [some "1", some "2024.03.05", some "전처리실\n칼 정리", some "kim", some "진행중",
      none, none]]

/-- A store with a header and one data row. -/
def storeC1 : List (List String) := [["ID"], ["1"]]

/-- A file whose only data row has a missing date cell, so the normalized
batch is empty. -/
def rowsC2e : List (List Cell) := [hdrRowEx, [some "번호", none]]

/-- A header-only store. -/
def storeC2e : List (List String) := [["ID"]]

/-- Data row carrying the scan marker, a dotted date and a line break in the
issue text. -/
def rowEx1 : List Cell :=
  [some "번호", some "2024.03.05", some "전처리실\n칼이 녹슬었음", some "kim",
    some "진행중", none, none]

/-- Data row with no line break in the issue text. -/
def rowEx2 : List Cell :=
  [some "2", some "2024.03.06", some "칼이 녹슬었음", some "lee", some "완료",
    some "교체", some "2024.03.07"]

/-- A file importing two records. -/
def rowsC2 : List (List Cell) := [hdrRowEx, rowEx1, rowEx2]

/-- The data rows of `rowsC2` as the importer iterates them. -/
def dataRowsEx : List (List Cell) := [rowEx1, rowEx2]

/-- A header-only canonical store (replace path). -/
def storeSmall : List (List String) := [canonHeader]

/-- A store with five existing data rows (append path). -/
def storeBig : List (List String) :=
  [canonHeader, ["A"], ["B"], ["C"], ["D"], ["E"]]

/-- Labels reached by the mapper that miss only the inspection-date role. -/
def rowsC3a : List (List Cell) :=
  [[some "번호", some "개선 필요사항", some "담당", some "진행상태", some "개선내용",
      some "개선완료일"],
    [some "번호"]]

/-- Labels reached by the mapper that miss only the progress-status role. -/
def rowsC3b : List (List Cell) :=
  [[some "번호", some "점검일", some "개선 필요사항", some "담당", some "개선내용",
      some "개선완료일"],
    [some "번호"]]

/-- A data row whose date cell is absent. -/
def rowAbsentEx : List Cell :=
  [some "1", none, some "정리", some "kim", some "진행중", none, none]

/-- A data row whose date cell is present but not a date. -/
def rowBadDateEx : List Cell :=
  [some "2", some "미정", some "정리", some "kim", some "진행중", none, none]

/-- Two data rows: one skipped, one kept with a blank date. -/
def rowsC4 : List (List Cell) := [rowAbsentEx, rowBadDateEx]

/-- A store in which the target text sits in the issue column of row 1, and no
ID-column cell equals it. -/
def storeC5 : List (List String) :=
  [canonHeader,
    ["1", "2024-01-01", "기타", "IMPORTED_7_0", "kim", "진행중", "", "", "", ""]]

/-- A store whose data row carries the target id in the ID column. -/
def storeC5w : List (List String) :=
  [canonHeader,
    ["1700000000", "2024-01-01", "전처리실", "칼 정리", "kim", "진행중", "", "", "",
      ""]]

/-- The first record `normalizeRows cmEx 5 0 dataRowsEx` produces. -/
def recEx : Record := ((normalizeRows cmEx 5 0 dataRowsEx).get? 0).getD default

/-- A stored record whose issue text is blank after stripping. -/
def recBlank : Record :=
  ⟨"1", "2024-01-01", "기타", "   ", "kim", "진행중", "", "", "", ""⟩

/-- A stored record whose date text is present but unparseable. -/
def recBadDate : Record :=
  ⟨"2", "미정", "기타", "칼이 녹슬었음", "kim", "진행중", "", "", "", ""⟩

/-- A two-record store content for the read path. -/
def recsC10 : List Record := [recBlank, recBadDate]

/-! ### Helper lemmas: first-match search -/

theorem firstIdx_some_spec {α : Type} (p : α → Bool) :
    ∀ (l : List α) (k : Nat), firstIdx p l = some k →
      ∃ x, l.get? k = some x ∧ p x = true ∧
        ∀ m y, m < k → l.get? m = some y → p y = false := by
  intro l
  induction l with
  | nil => intro k h; simp [firstIdx] at h
  | cons a t ih =>
    intro k h
    have hdef : firstIdx p (a :: t)
        = if p a then some 0 else (firstIdx p t).map (fun k => k + 1) := rfl
    rw [hdef] at h
    by_cases hp : p a = true
    · rw [if_pos hp] at h
      injection h with h2
      subst h2
      exact ⟨a, rfl, hp, fun m y hm _ => absurd hm (by omega)⟩
    · have hpa : p a = false := by revert hp; cases p a <;> simp
      rw [if_neg hp] at h
      cases hft : firstIdx p t with
      | none => rw [hft] at h; cases h
      | some k2 =>
        rw [hft] at h
        injection h with h2
        subst h2
        obtain ⟨x, hx, hpx, hmin⟩ := ih k2 hft
        refine ⟨x, hx, hpx, ?_⟩
        intro m y hm hy
        cases m with
        | zero =>
          injection hy with hy2
          subst hy2
          exact hpa
        | succ m =>
          have hm2 : m + 1 < k2 + 1 := hm
          exact hmin m y (by omega) hy

theorem firstIdx_none_spec {α : Type} (p : α → Bool) :
    ∀ l : List α, firstIdx p l = none ↔ ∀ x ∈ l, p x = false := by
  intro l
  induction l with
  | nil => simp [firstIdx]
  | cons a t ih =>
    by_cases hp : p a = true
    · simp [firstIdx, hp]
    · have hpa : p a = false := by revert hp; cases p a <;> simp
      simp [firstIdx, hpa, ih]

/-! ### Helper lemmas: decimal rendering is injective -/

theorem digitsRevAux_lt_ten : ∀ f n, ∀ d ∈ digitsRevAux f n, d < 10 := by
  intro f
  induction f with
  | zero =>
    intro n d hd
    simp [digitsRevAux] at hd
    omega
  | succ f ih =>
    intro n d hd
    by_cases hn : n < 10
    · simp [digitsRevAux, hn] at hd; omega
    · simp [digitsRevAux, hn] at hd
      rcases hd with hd | hd
      · omega
      · exact ih _ _ hd

theorem unDigits_digitsRevAux : ∀ f n, n ≤ f → unDigits (digitsRevAux f n) = n := by
  intro f
  induction f with
  | zero =>
    intro n hn
    have : n = 0 := by omega
    subst this
    simp [digitsRevAux, unDigits]
  | succ f ih =>
    intro n hn
    by_cases h10 : n < 10
    · simp [digitsRevAux, h10, unDigits]
    · have hlt : n / 10 < n := Nat.div_lt_self (by omega) (by omega)
      have hdiv : n / 10 ≤ f := by omega
      simp [digitsRevAux, h10, unDigits, ih (n / 10) hdiv]
      omega

theorem charDigit_digitChar : ∀ d, d < 10 → charDigit (digitChar d) = d := by
  intro d hd
  interval_cases d <;> rfl

theorem map_charDigit_digitChar :
    ∀ l : List Nat, (∀ d ∈ l, d < 10) →
      l.map (fun d => charDigit (digitChar d)) = l := by
  intro l hl
  induction l with
  | nil => rfl
  | cons a t ih =>
    simp only [List.map_cons]
    rw [charDigit_digitChar a (hl a (by simp)),
      ih (fun d hd => hl d (by simp [hd]))]

theorem natStr_data_inj (a b : Nat) (h : (natStr a).data = (natStr b).data) :
    a = b := by
  have h2 := congrArg (List.map charDigit) h
  rw [show (natStr a).data = (digitsRevAux a a).reverse.map digitChar from rfl,
    show (natStr b).data = (digitsRevAux b b).reverse.map digitChar from rfl,
    List.map_map, List.map_map] at h2
  have ha : (digitsRevAux a a).reverse.map (fun d => charDigit (digitChar d))
      = (digitsRevAux a a).reverse :=
    map_charDigit_digitChar _ (fun d hd => digitsRevAux_lt_ten a a d (List.mem_reverse.mp hd))
  have hb : (digitsRevAux b b).reverse.map (fun d => charDigit (digitChar d))
      = (digitsRevAux b b).reverse :=
    map_charDigit_digitChar _ (fun d hd => digitsRevAux_lt_ten b b d (List.mem_reverse.mp hd))
  have h2b : (digitsRevAux a a).reverse.map (fun d => charDigit (digitChar d))
      = (digitsRevAux b b).reverse.map (fun d => charDigit (digitChar d)) := h2
  rw [ha, hb] at h2b
  have h4 : digitsRevAux a a = digitsRevAux b b := by
    have := congrArg List.reverse h2b
    simpa using this
  calc a = unDigits (digitsRevAux a a) := (unDigits_digitsRevAux a a (le_refl a)).symm
    _ = unDigits (digitsRevAux b b) := by rw [h4]
    _ = b := unDigits_digitsRevAux b b (le_refl b)

theorem list_append_left_cancel {p l1 l2 : List Char} (h : p ++ l1 = p ++ l2) :
    l1 = l2 := by
  induction p with
  | nil => simpa using h
  | cons x xs ih => exact ih (by simpa using h)

theorem mkId_inj_idx (ts a b : Nat) (h : mkId ts a = mkId ts b) : a = b := by
  have hdata := congrArg String.data h
  have ha : (mkId ts a).data
      = ("IMPORTED_" ++ natStr ts ++ "_").data ++ (natStr a).data := rfl
  have hb : (mkId ts b).data
      = ("IMPORTED_" ++ natStr ts ++ "_").data ++ (natStr b).data := rfl
  rw [ha, hb] at hdata
  exact natStr_data_inj a b (list_append_left_cancel hdata)

/-! ### Helper lemmas: the importer loop -/

theorem normalizeRow_eq_none (c : ColMap) (ts i : Nat) (row : List Cell)
    (h : cellAt row c.date = none) : normalizeRow c ts i row = none := by
  unfold normalizeRow
  rw [h]

theorem normalizeRow_eq_some (c : ColMap) (ts i : Nat) (row : List Cell) (d : String)
    (h : cellAt row c.date = some d) :
    normalizeRow c ts i row = some
      { id := mkId ts i
        insDate := dNorm d
        location :=
          if strHas (cellStr (cellAt row c.issue)) "\n" then
            sTrim (beforeFirst "\n" (cellStr (cellAt row c.issue)))
          else "기타"
        issue := cellStr (cellAt row c.issue)
        owner := cellStr (cellAt row c.dept)
        status := sTrim (cellStr (cellAt row c.status))
        action := (cellAt row c.action).getD ""
        complete := dNorm (cellStr (cellAt row c.complete))
        photoBefore := ""
        photoAfter := "" } := by
  unfold normalizeRow
  rw [h]

theorem normalizeRow_id (c : ColMap) (ts i : Nat) (row : List Cell) (r : Record)
    (h : normalizeRow c ts i row = some r) : r.id = mkId ts i := by
  cases hd : cellAt row c.date with
  | none => rw [normalizeRow_eq_none c ts i row hd] at h; cases h
  | some d =>
    rw [normalizeRow_eq_some c ts i row d hd] at h
    injection h with h2
    subst h2
    rfl

theorem normalizeRows_mem (c : ColMap) (ts : Nat) :
    ∀ (rows : List (List Cell)) (i0 : Nat) (r : Record),
      r ∈ normalizeRows c ts i0 rows →
      ∃ k row, rows.get? k = some row ∧ normalizeRow c ts (i0 + k) row = some r := by
  intro rows
  induction rows with
  | nil => intro i0 r h; simp [normalizeRows] at h
  | cons row rest ih =>
    intro i0 r h
    cases hn : normalizeRow c ts i0 row with
    | none =>
      rw [show normalizeRows c ts i0 (row :: rest) = normalizeRows c ts (i0 + 1) rest from
        by simp [normalizeRows, hn]] at h
      obtain ⟨k, row2, hk, hr⟩ := ih (i0 + 1) r h
      exact ⟨k + 1, row2, hk, by rw [show i0 + (k + 1) = i0 + 1 + k from by omega]; exact hr⟩
    | some r0 =>
      rw [show normalizeRows c ts i0 (row :: rest)
          = r0 :: normalizeRows c ts (i0 + 1) rest from by simp [normalizeRows, hn]] at h
      rcases List.mem_cons.mp h with h | h
      · subst h; exact ⟨0, row, rfl, by simpa using hn⟩
      · obtain ⟨k, row2, hk, hr⟩ := ih (i0 + 1) r h
        exact ⟨k + 1, row2, hk, by rw [show i0 + (k + 1) = i0 + 1 + k from by omega]; exact hr⟩

theorem normalizeRows_id_lb (c : ColMap) (ts : Nat) (rows : List (List Cell))
    (i0 : Nat) (r : Record) (h : r ∈ normalizeRows c ts i0 rows) :
    ∃ k, i0 ≤ k ∧ r.id = mkId ts k := by
  obtain ⟨k, row, _, hr⟩ := normalizeRows_mem c ts rows i0 r h
  exact ⟨i0 + k, by omega, normalizeRow_id c ts (i0 + k) row r hr⟩

theorem normalizeRows_ids_pairwise (c : ColMap) (ts : Nat) :
    ∀ (rows : List (List Cell)) (i0 : Nat),
      ((normalizeRows c ts i0 rows).map (fun r => r.id)).Pairwise (fun x y => x ≠ y) := by
  intro rows
  induction rows with
  | nil => intro i0; simp [normalizeRows]
  | cons row rest ih =>
    intro i0
    cases hn : normalizeRow c ts i0 row with
    | none =>
      rw [show normalizeRows c ts i0 (row :: rest) = normalizeRows c ts (i0 + 1) rest from
        by simp [normalizeRows, hn]]
      exact ih (i0 + 1)
    | some r0 =>
      rw [show normalizeRows c ts i0 (row :: rest)
          = r0 :: normalizeRows c ts (i0 + 1) rest from by simp [normalizeRows, hn]]
      rw [List.map_cons, List.pairwise_cons]
      refine ⟨?_, ih (i0 + 1)⟩
      intro b hb
      obtain ⟨r2, hr2, hb2⟩ := List.mem_map.mp hb
      obtain ⟨k, hk, hid⟩ := normalizeRows_id_lb c ts rest (i0 + 1) r2 hr2
      have h0 : r0.id = mkId ts i0 := normalizeRow_id c ts i0 row r0 hn
      subst hb2
      intro hcontra
      have : i0 = k := mkId_inj_idx ts i0 k (by rw [← h0, ← hid, hcontra])
      omega

theorem normalizeRows_length (c : ColMap) (ts : Nat) :
    ∀ (rows : List (List Cell)) (i0 : Nat),
      (normalizeRows c ts i0 rows).length
        + rows.countP (fun row => (cellAt row c.date).isNone) = rows.length := by
  intro rows
  induction rows with
  | nil => intro i0; simp [normalizeRows]
  | cons row rest ih =>
    intro i0
    cases hd : cellAt row c.date with
    | none =>
      rw [show normalizeRows c ts i0 (row :: rest) = normalizeRows c ts (i0 + 1) rest from
        by simp [normalizeRows, normalizeRow_eq_none c ts i0 row hd]]
      rw [List.countP_cons]
      have := ih (i0 + 1)
      simp [hd]
      omega
    | some d =>
      rw [show normalizeRows c ts i0 (row :: rest)
          = (Option.get! (normalizeRow c ts i0 row)) :: normalizeRows c ts (i0 + 1) rest from
        by simp [normalizeRows, normalizeRow_eq_some c ts i0 row d hd, Option.get!]]
      rw [List.countP_cons]
      have := ih (i0 + 1)
      simp [hd]
      omega

/-! ### Claims about the importer loop -/

/-- C4: a data row whose resolved date cell is absent is skipped with no error,
so the batch length is the data row count minus the number of such rows; a row
whose date cell is present but unparseable is retained with an empty
InspectionDate. -/
theorem c4_row_skip (c : ColMap) (ts : Nat) (rows : List (List Cell)) :
    (normalizeRows c ts 0 rows).length
      = rows.length - rows.countP (fun row => (cellAt row c.date).isNone)
    ∧ (∀ i row, cellAt row c.date = none → normalizeRow c ts i row = none)
    ∧ (∀ i row d, cellAt row c.date = some d → pdParseYmd (replaceDots d) = none →
        ∃ r, normalizeRow c ts i row = some r ∧ r.insDate = "") := by
  refine ⟨?_, ?_, ?_⟩
  · have := normalizeRows_length c ts rows 0
    omega
  · intro i row h
    exact normalizeRow_eq_none c ts i row h
  · intro i row d hd hp
    refine ⟨_, normalizeRow_eq_some c ts i row d hd, ?_⟩
    show dNorm d = ""
    unfold dNorm
    rw [hp]

theorem c4_row_skip_witness :
    (normalizeRows cmEx 3 0 rowsC4).length = rowsC4.length - 1
    ∧ normalizeRow cmEx 3 0 rowAbsentEx = none
    ∧ ∃ r, normalizeRow cmEx 3 1 rowBadDateEx = some r ∧ r.insDate = "" := by
  obtain ⟨h1, h2, h3⟩ := c4_row_skip cmEx 3 rowsC4
  refine ⟨?_, h2 0 rowAbsentEx (by rfl), h3 1 rowBadDateEx "미정" (by rfl) (by decide)⟩
  rw [h1]
  decide

/-- C6: InspectionDate and CompletionDate each come from replacing every dot
with a dash in the raw cell text and attempting a date parse, ISO-formatted on
success and the empty string on failure; the text 2024.03.05 yields
2024-03-05. -/
theorem c6_date_normalization (c : ColMap) (ts i : Nat) (row : List Cell) (d : String)
    (h : cellAt row c.date = some d) :
    ∃ r, normalizeRow c ts i row = some r
      ∧ r.insDate = (match pdParseYmd (replaceDots d) with
          | some x => fmtYmd x
          | none => "")
      ∧ r.complete = (match pdParseYmd (replaceDots (cellStr (cellAt row c.complete))) with
          | some x => fmtYmd x
          | none => "")
      ∧ dNorm "2024.03.05" = "2024-03-05" := by
  exact ⟨_, normalizeRow_eq_some c ts i row d h, rfl, rfl, by decide⟩

theorem c6_date_normalization_witness :
    ∃ r, normalizeRow cmEx 5 0 rowEx1 = some r ∧ r.insDate = "2024-03-05" := by
  obtain ⟨r, hr, hd, _, _⟩ := c6_date_normalization cmEx 5 0 rowEx1 "2024.03.05" (by rfl)
  refine ⟨r, hr, ?_⟩
  rw [hd]
  decide

/-- C7: when the issue cell text contains a line break, Location is the trimmed
text before the first line break and IssueText keeps the full original text;
otherwise Location is the literal fallback 기타. -/
theorem c7_location_derivation (c : ColMap) (ts i : Nat) (row : List Cell) (d : String)
    (h : cellAt row c.date = some d) :
    ∃ r, normalizeRow c ts i row = some r
      ∧ r.issue = cellStr (cellAt row c.issue)
      ∧ (strHas (cellStr (cellAt row c.issue)) "\n" = true →
          r.location = sTrim (beforeFirst "\n" (cellStr (cellAt row c.issue))))
      ∧ (strHas (cellStr (cellAt row c.issue)) "\n" = false → r.location = "기타") := by
  refine ⟨_, normalizeRow_eq_some c ts i row d h, rfl, ?_, ?_⟩ <;> intro hb <;> simp [hb]

theorem c7_location_derivation_witness :
    (∃ r, normalizeRow cmEx 5 0 rowEx1 = some r
      ∧ r.issue = "전처리실\n칼이 녹슬었음" ∧ r.location = "전처리실")
    ∧ ∃ r, normalizeRow cmEx 5 1 rowEx2 = some r ∧ r.location = "기타" := by
  constructor
  · obtain ⟨r, hr, hiss, hb, _⟩ := c7_location_derivation cmEx 5 0 rowEx1 "2024.03.05" (by rfl)
    refine ⟨r, hr, ?_, ?_⟩
    · rw [hiss]
      decide
    · rw [hb (by decide)]
      decide
  · obtain ⟨r, hr, _, _, hnb⟩ := c7_location_derivation cmEx 5 1 rowEx2 "2024.03.06" (by rfl)
    exact ⟨r, hr, hnb (by decide)⟩

/-- C8: every record of one import has id IMPORTED_<ts>_<k> with ts the single
batch timestamp parameter and k the zero-based frame index of its source data
row, and the ids assigned within one import are pairwise distinct. -/
theorem c8_id_uniqueness (c : ColMap) (ts : Nat) (rows : List (List Cell)) :
    (∀ r ∈ normalizeRows c ts 0 rows,
        ∃ k row, rows.get? k = some row ∧ normalizeRow c ts k row = some r
          ∧ r.id = mkId ts k)
    ∧ ((normalizeRows c ts 0 rows).map (fun r => r.id)).Pairwise (fun x y => x ≠ y) := by
  constructor
  · intro r hr
    obtain ⟨k, row, hk, hrow⟩ := normalizeRows_mem c ts rows 0 r hr
    rw [show (0 : Nat) + k = k from by omega] at hrow
    exact ⟨k, row, hk, hrow, normalizeRow_id c ts k row r hrow⟩
  · exact normalizeRows_ids_pairwise c ts rows 0

theorem c8_id_uniqueness_witness :
    recEx ∈ normalizeRows cmEx 5 0 dataRowsEx
    ∧ ∃ k row, dataRowsEx.get? k = some row
        ∧ normalizeRow cmEx 5 k row = some recEx ∧ recEx.id = mkId 5 k := by
  have hm : recEx ∈ normalizeRows cmEx 5 0 dataRowsEx := by decide
  exact ⟨hm, (c8_id_uniqueness cmEx 5 dataRowsEx).1 recEx hm⟩

/-! ### Claims about the commit and the column mapper -/

/-- C2 counterexample: a located header with mapped columns but an empty
normalized batch makes process_and_upload abort with the uncaught empty-frame
column-selection error; no nothing-to-upload outcome is reported (the store is
indeed left unmodified). -/
theorem c2_empty_batch_counterexample :
    process_and_upload 0 rowsC2e storeC2e = (.emptyBatchError, storeC2e)
    ∧ (process_and_upload 0 rowsC2e storeC2e).1 ≠ ImportResult.uploaded 0 := by
  constructor <;> decide

/-- C2 (amended): with a located header and mapped columns, an empty normalized
batch aborts with the uncaught empty-frame column-selection error and performs
no store mutation (there is no nothing-to-upload report); a nonempty batch
replaces a store holding at most one row with the canonical header row followed
by the new rows, and otherwise appends the new rows after the existing content,
leaving the header and all pre-existing rows unchanged. -/
theorem c2_commit_behavior (ts : Nat) (fileRows : List (List Cell))
    (store : List (List String)) (j : Nat) (cm : ColMap)
    (hj : scanHeader fileRows = some j)
    (hm : mapColumns (headerCols ((fileRows.get? j).getD [])) = some cm) :
    (normalizeRows cm ts 0 (fileRows.drop (j + 1)) = [] →
        process_and_upload ts fileRows store = (.emptyBatchError, store))
    ∧ (normalizeRows cm ts 0 (fileRows.drop (j + 1)) ≠ [] → store.length ≤ 1 →
        process_and_upload ts fileRows store
          = (.uploaded (normalizeRows cm ts 0 (fileRows.drop (j + 1))).length,
              canonHeader :: (normalizeRows cm ts 0 (fileRows.drop (j + 1))).map recordToRow))
    ∧ (normalizeRows cm ts 0 (fileRows.drop (j + 1)) ≠ [] → ¬store.length ≤ 1 →
        process_and_upload ts fileRows store
          = (.uploaded (normalizeRows cm ts 0 (fileRows.drop (j + 1))).length,
              store ++ (normalizeRows cm ts 0 (fileRows.drop (j + 1))).map recordToRow)) := by
  rw [List.get?_eq_getElem?] at hm
  refine ⟨?_, ?_, ?_⟩
  · intro h1
    simp [process_and_upload, hj, hm, h1]
  · intro h1 h2
    simp [process_and_upload, hj, hm, h1, h2]
  · intro h1 h2
    simp [process_and_upload, hj, hm, h1, h2]

theorem c2_commit_behavior_witness :
    process_and_upload 5 rowsC2 storeSmall
      = (.uploaded 2, canonHeader :: (normalizeRows cmEx 5 0 (rowsC2.drop 1)).map recordToRow)
    ∧ process_and_upload 5 rowsC2 storeBig
      = (.uploaded 2, storeBig ++ (normalizeRows cmEx 5 0 (rowsC2.drop 1)).map recordToRow)
    ∧ (normalizeRows cmEx 5 0 (rowsC2.drop 1)).map recordToRow
      = [["IMPORTED_5_0", "2024-03-05", "전처리실", "전처리실\n칼이 녹슬었음", "kim",
            "진행중", "", "", "", ""],
          ["IMPORTED_5_1", "2024-03-06", "기타", "칼이 녹슬었음", "lee", "완료", "교체",
            "2024-03-07", "", ""]] := by
  refine ⟨?_, ?_, by decide⟩
  · exact (c2_commit_behavior 5 rowsC2 storeSmall 0 cmEx (by rfl) (by rfl)).2.1
      (by decide) (by decide)
  · exact (c2_commit_behavior 5 rowsC2 storeBig 0 cmEx (by rfl) (by rfl)).2.2
      (by decide) (by decide)

/-- C3 counterexample: two files failing different single roles (inspection
date only, progress status only) produce the identical fixed error outcome,
whose message lists all six role tokens: the failure does not name which
role(s) failed. -/
theorem c3_fixed_message_counterexample :
    process_and_upload 0 rowsC3a storeC1 = (.requiredColumnMissing requiredColsMsg, storeC1)
    ∧ process_and_upload 0 rowsC3b storeC1
      = (.requiredColumnMissing requiredColsMsg, storeC1)
    ∧ firstIdx (fun l => strHas l "점검일") (headerCols ((rowsC3a.get? 0).getD [])) = none
    ∧ firstIdx (fun l => strHas l "진행상태") (headerCols ((rowsC3a.get? 0).getD [])) ≠ none
    ∧ firstIdx (fun l => strHas l "진행상태") (headerCols ((rowsC3b.get? 0).getD [])) = none
    ∧ firstIdx (fun l => strHas l "점검일") (headerCols ((rowsC3b.get? 0).getD [])) ≠ none
    ∧ strHas requiredColsMsg "진행상태" = true ∧ strHas requiredColsMsg "점검일" = true := by
  refine ⟨?_, ?_, ?_, ?_, ?_, ?_, ?_, ?_⟩ <;> decide

/-- C3 (amended): each of the six roles resolves to the first column label in
left-to-right order containing its designated token(s), the issue role over
the combined candidate set with the first label satisfying either winning; if
any role resolves to no column the import aborts with the requiredColumnMissing
error carrying the fixed message that lists all six role tokens, and the store
is unmodified. -/
theorem c3_column_mapping (ts : Nat) (fileRows : List (List Cell))
    (store : List (List String)) :
    (∀ j, scanHeader fileRows = some j →
        mapColumns (headerCols ((fileRows.get? j).getD [])) = none →
        process_and_upload ts fileRows store
          = (.requiredColumnMissing requiredColsMsg, store))
    ∧ (∀ cols cm, mapColumns cols = some cm →
        (∃ x, cols.get? cm.date = some x ∧ strHas x "점검일" = true ∧
          ∀ m y, m < cm.date → cols.get? m = some y → strHas y "점검일" = false)
        ∧ (∃ x, cols.get? cm.issue = some x
            ∧ (strHas x "개선 필요사항" || strHas x "내용") = true ∧
          ∀ m y, m < cm.issue → cols.get? m = some y →
            (strHas y "개선 필요사항" || strHas y "내용") = false)
        ∧ (∃ x, cols.get? cm.dept = some x
            ∧ (strHas x "관리부서" || strHas x "담당") = true ∧
          ∀ m y, m < cm.dept → cols.get? m = some y →
            (strHas y "관리부서" || strHas y "담당") = false)
        ∧ (∃ x, cols.get? cm.status = some x ∧ strHas x "진행상태" = true ∧
          ∀ m y, m < cm.status → cols.get? m = some y → strHas y "진행상태" = false)
        ∧ (∃ x, cols.get? cm.action = some x ∧ strHas x "개선내용" = true ∧
          ∀ m y, m < cm.action → cols.get? m = some y → strHas y "개선내용" = false)
        ∧ (∃ x, cols.get? cm.complete = some x ∧ strHas x "개선완료일" = true ∧
          ∀ m y, m < cm.complete → cols.get? m = some y →
            strHas y "개선완료일" = false)) := by
  constructor
  · intro j hj hm
    rw [List.get?_eq_getElem?] at hm
    simp [process_and_upload, hj, hm]
  · intro cols cm hcm
    unfold mapColumns at hcm
    cases h1 : firstIdx (fun l => strHas l "점검일") cols with
    | none => rw [h1] at hcm; simp at hcm
    | some a =>
    cases h2 : firstIdx (fun l => strHas l "개선 필요사항" || strHas l "내용") cols with
    | none => rw [h1, h2] at hcm; simp at hcm
    | some b =>
    cases h3 : firstIdx (fun l => strHas l "관리부서" || strHas l "담당") cols with
    | none => rw [h1, h2, h3] at hcm; simp at hcm
    | some c =>
    cases h4 : firstIdx (fun l => strHas l "진행상태") cols with
    | none => rw [h1, h2, h3, h4] at hcm; simp at hcm
    | some d =>
    cases h5 : firstIdx (fun l => strHas l "개선내용") cols with
    | none => rw [h1, h2, h3, h4, h5] at hcm; simp at hcm
    | some e =>
    cases h6 : firstIdx (fun l => strHas l "개선완료일") cols with
    | none => rw [h1, h2, h3, h4, h5, h6] at hcm; simp at hcm
    | some f =>
    rw [h1, h2, h3, h4, h5, h6] at hcm
    simp only [Option.some.injEq] at hcm
    subst hcm
    exact ⟨firstIdx_some_spec _ cols a h1, firstIdx_some_spec _ cols b h2,
      firstIdx_some_spec _ cols c h3, firstIdx_some_spec _ cols d h4,
      firstIdx_some_spec _ cols e h5, firstIdx_some_spec _ cols f h6⟩

theorem c3_column_mapping_witness :
    process_and_upload 3 rowsC3a storeC1 = (.requiredColumnMissing requiredColsMsg, storeC1)
    ∧ ∃ x, (headerCols hdrRowEx).get? cmEx.issue = some x
        ∧ (strHas x "개선 필요사항" || strHas x "내용") = true := by
  constructor
  · exact (c3_column_mapping 3 rowsC3a storeC1).1 0 (by rfl) (by rfl)
  · obtain ⟨hdate, hissue, hrest⟩ :=
      (c3_column_mapping 3 rowsC3a storeC1).2 (headerCols hdrRowEx) cmEx (by rfl)
    obtain ⟨x, hx, hpx, hmin⟩ := hissue
    exact ⟨x, hx, hpx⟩

/-! ### Helper lemmas: the remediation update -/

theorem setIdx_getD_self : ∀ (n : Nat) (row : List String) (v : String),
    ((setIdx row n v).get? n).getD "" = v := by
  intro n
  induction n with
  | zero =>
    intro row v
    cases row <;> rfl
  | succ n ih =>
    intro row v
    cases row with
    | nil => exact ih [] v
    | cons h t => exact ih t v

theorem setIdx_getD_other : ∀ (n : Nat) (row : List String) (v : String) (j : Nat),
    j ≠ n → ((setIdx row n v).get? j).getD "" = (row.get? j).getD "" := by
  intro n
  induction n with
  | zero =>
    intro row v j hj
    cases row with
    | nil =>
      cases j with
      | zero => omega
      | succ j => rfl
    | cons h t =>
      cases j with
      | zero => omega
      | succ j => rfl
  | succ n ih =>
    intro row v j hj
    cases row with
    | nil =>
      cases j with
      | zero => rfl
      | succ j => exact ih [] v j (by omega)
    | cons h t =>
      cases j with
      | zero => rfl
      | succ j => exact ih t v j (by omega)

theorem modifyAt_get_self (f : List String → List String) :
    ∀ (n : Nat) (st : List (List String)),
      (modifyAt f n st).get? n = (st.get? n).map f := by
  intro n
  induction n with
  | zero =>
    intro st
    cases st <;> rfl
  | succ n ih =>
    intro st
    cases st with
    | nil => rfl
    | cons row rest => exact ih rest

theorem modifyAt_get_other (f : List String → List String) :
    ∀ (n : Nat) (st : List (List String)) (i : Nat), i ≠ n →
      (modifyAt f n st).get? i = st.get? i := by
  intro n
  induction n with
  | zero =>
    intro st i hi
    cases st with
    | nil => rfl
    | cons row rest =>
      cases i with
      | zero => omega
      | succ i => rfl
  | succ n ih =>
    intro st i hi
    cases st with
    | nil => rfl
    | cons row rest =>
      cases i with
      | zero => rfl
      | succ i => exact ih rest i (by omega)

theorem cellVal_modifyAt_self (f : List String → List String) (r : Nat)
    (store : List (List String)) (row : List String) (hrow : store.get? r = some row)
    (j : Nat) : cellVal (modifyAt f r store) r j = ((f row).get? j).getD "" := by
  unfold cellVal
  rw [modifyAt_get_self, hrow]
  rfl

theorem cellVal_modifyAt_other (f : List String → List String) (r : Nat)
    (store : List (List String)) (i j : Nat) (hi : i ≠ r) :
    cellVal (modifyAt f r store) i j = cellVal store i j := by
  unfold cellVal
  rw [modifyAt_get_other f r store i hi]

theorem applyRem_cells (row : List String) (atxt adt photo : String) :
    ((applyRemediation row atxt adt photo).get? 6).getD "" = atxt
    ∧ ((applyRemediation row atxt adt photo).get? 7).getD "" = adt
    ∧ ((applyRemediation row atxt adt photo).get? 5).getD "" = "완료"
    ∧ (photo ≠ "" → ((applyRemediation row atxt adt photo).get? 9).getD "" = photo)
    ∧ (photo = "" → ((applyRemediation row atxt adt photo).get? 9).getD ""
        = (row.get? 9).getD "")
    ∧ (∀ j, j ≠ 5 → j ≠ 6 → j ≠ 7 → j ≠ 9 →
        ((applyRemediation row atxt adt photo).get? j).getD "" = (row.get? j).getD "") := by
  unfold applyRemediation
  by_cases hp : (photo == "") = true
  · have hpe : photo = "" := eq_of_beq hp
    rw [if_pos hp]
    refine ⟨?_, ?_, ?_, ?_, ?_, ?_⟩
    · rw [setIdx_getD_other 5 _ _ 6 (by omega), setIdx_getD_other 7 _ _ 6 (by omega),
        setIdx_getD_self]
    · rw [setIdx_getD_other 5 _ _ 7 (by omega), setIdx_getD_self]
    · rw [setIdx_getD_self]
    · intro h
      exact absurd hpe h
    · intro _
      rw [setIdx_getD_other 5 _ _ 9 (by omega), setIdx_getD_other 7 _ _ 9 (by omega),
        setIdx_getD_other 6 _ _ 9 (by omega)]
    · intro j h5 h6 h7 _
      rw [setIdx_getD_other 5 _ _ j h5, setIdx_getD_other 7 _ _ j h7,
        setIdx_getD_other 6 _ _ j h6]
  · have hne : photo ≠ "" := by simpa using hp
    rw [if_neg hp]
    refine ⟨?_, ?_, ?_, ?_, ?_, ?_⟩
    · rw [setIdx_getD_other 9 _ _ 6 (by omega), setIdx_getD_other 5 _ _ 6 (by omega),
        setIdx_getD_other 7 _ _ 6 (by omega), setIdx_getD_self]
    · rw [setIdx_getD_other 9 _ _ 7 (by omega), setIdx_getD_other 5 _ _ 7 (by omega),
        setIdx_getD_self]
    · rw [setIdx_getD_other 9 _ _ 5 (by omega), setIdx_getD_self]
    · intro _
      rw [setIdx_getD_self]
    · intro h
      exact absurd h hne
    · intro j h5 h6 h7 h9
      rw [setIdx_getD_other 9 _ _ j h9, setIdx_getD_other 5 _ _ j h5,
        setIdx_getD_other 7 _ _ j h7, setIdx_getD_other 6 _ _ j h6]

theorem wsFind0_some_spec (q : String) :
    ∀ (st : List (List String)) (r c : Nat), wsFind0 q st = some (r, c) →
      ∃ row, st.get? r = some row ∧ row.get? c = some q
        ∧ (∀ i row2, i < r → st.get? i = some row2 → ∀ x ∈ row2, x ≠ q)
        ∧ (∀ m y, m < c → row.get? m = some y → y ≠ q) := by
  intro st
  induction st with
  | nil => intro r c h; simp [wsFind0] at h
  | cons row rest ih =>
    intro r c h
    cases hf : firstIdx (fun x => x == q) row with
    | some c0 =>
      rw [show wsFind0 q (row :: rest) = some (0, c0) from by simp [wsFind0, hf]] at h
      obtain ⟨x, hx, hpx, hmin⟩ := firstIdx_some_spec _ row c0 hf
      have hxq : x = q := eq_of_beq hpx
      subst hxq
      injection h with h2
      rw [Prod.mk.injEq] at h2
      obtain ⟨hr, hc⟩ := h2
      subst hr
      subst hc
      refine ⟨row, rfl, hx, ?_, ?_⟩
      · intro i row2 hi
        omega
      · intro m y hm hy
        have := hmin m y hm hy
        intro hyq
        subst hyq
        simp at this
    | none =>
      rw [show wsFind0 q (row :: rest)
          = (wsFind0 q rest).map (fun rc => (rc.1 + 1, rc.2)) from by simp [wsFind0, hf]] at h
      cases hw : wsFind0 q rest with
      | none => rw [hw] at h; cases h
      | some rc =>
        rw [hw] at h
        obtain ⟨r0, c0⟩ := rc
        obtain ⟨row2, hrow2, hcell, hprev, hmin⟩ := ih r0 c0 hw
        injection h with h2
        rw [Prod.mk.injEq] at h2
        obtain ⟨hr, hc⟩ := h2
        subst hr
        subst hc
        refine ⟨row2, hrow2, hcell, ?_, hmin⟩
        intro i rowi hi hrowi x hx
        cases i with
        | zero =>
          injection hrowi with h3
          subst h3
          have := (firstIdx_none_spec _ row).mp hf x hx
          intro hxq
          subst hxq
          simp at this
        | succ i => exact hprev i rowi (by omega) hrowi x hx

theorem wsFind0_none_spec (q : String) :
    ∀ st : List (List String), wsFind0 q st = none ↔ ∀ row ∈ st, ∀ x ∈ row, x ≠ q := by
  intro st
  induction st with
  | nil => simp [wsFind0]
  | cons row rest ih =>
    cases hf : firstIdx (fun x => x == q) row with
    | some c0 =>
      constructor
      · intro h
        rw [show wsFind0 q (row :: rest) = some (0, c0) from by simp [wsFind0, hf]] at h
        cases h
      · intro hall
        obtain ⟨x, hx, hpx, _⟩ := firstIdx_some_spec _ row c0 hf
        have hxq : x = q := eq_of_beq hpx
        have hmem : x ∈ row := List.get?_mem hx
        exact absurd hxq (hall row (List.mem_cons_self row rest) x hmem)
    | none =>
      rw [show wsFind0 q (row :: rest)
          = (wsFind0 q rest).map (fun rc => (rc.1 + 1, rc.2)) from by simp [wsFind0, hf]]
      constructor
      · intro h row2 hrow2 x hx
        rcases List.mem_cons.mp hrow2 with h2 | h2
        · have hxr : x ∈ row := h2 ▸ hx
          have := (firstIdx_none_spec _ row).mp hf x hxr
          intro hxq
          subst hxq
          simp at this
        · have hnone : wsFind0 q rest = none := by
            cases hw : wsFind0 q rest with
            | none => rfl
            | some rc => rw [hw] at h; simp at h
          exact (ih.mp hnone) row2 h2 x hx
      · intro hall
        have hnone : wsFind0 q rest = none :=
          ih.mpr (fun row2 h2 x hx => hall row2 (by simp [h2]) x hx)
        rw [hnone]
        rfl

/-! ### Claims about the remediation update -/

/-- C5 counterexample: the target id appears only in the issue column of a data
row, no ID-column cell equals it, yet the update succeeds and rewrites that
row — the claim predicts a reported failure with no cell modified. -/
theorem c5_find_scans_all_cells_counterexample :
    (∀ row ∈ storeC5, row.get? 0 ≠ some "IMPORTED_7_0")
    ∧ actFormUpdate storeC5 "IMPORTED_7_0" "수리" "2024-02-02" ""
      = some [canonHeader,
          ["1", "2024-01-01", "기타", "IMPORTED_7_0", "kim", "완료", "수리",
            "2024-02-02", "", ""]]
    ∧ actFormUpdate storeC5 "IMPORTED_7_0" "수리" "2024-02-02" "" ≠ some storeC5 := by
  refine ⟨by decide, by decide, by decide⟩

/-- C5 (amended): the remediation update locates the first cell in row-major
order anywhere in the store whose value exactly equals the target id (not only
in the ID column) and overwrites exactly four cells of that row in place
(0-indexed columns 6 RemediationText, 7 CompletionDate, 5 Status set to 완료,
and 9 PhotoAfter only when a photo id was produced; sheet columns 7, 8, 6, 10);
every other cell of the store is unchanged; when no cell of the store equals
the target id, the operation reports a failure and no cell is modified. -/
theorem c5_remediation_update (store : List (List String)) (q atxt adt photo : String) :
    (actFormUpdate store q atxt adt photo = none ↔ ∀ row ∈ store, ∀ x ∈ row, x ≠ q)
    ∧ (∀ r c, wsFind0 q store = some (r, c) →
        ∃ row st2, store.get? r = some row ∧ row.get? c = some q
          ∧ (∀ i row2, i < r → store.get? i = some row2 → ∀ x ∈ row2, x ≠ q)
          ∧ (∀ m y, m < c → row.get? m = some y → y ≠ q)
          ∧ actFormUpdate store q atxt adt photo = some st2
          ∧ (∀ i j, i ≠ r → cellVal st2 i j = cellVal store i j)
          ∧ cellVal st2 r 6 = atxt
          ∧ cellVal st2 r 7 = adt
          ∧ cellVal st2 r 5 = "완료"
          ∧ (photo ≠ "" → cellVal st2 r 9 = photo)
          ∧ (photo = "" → cellVal st2 r 9 = cellVal store r 9)
          ∧ (∀ j, j ≠ 5 → j ≠ 6 → j ≠ 7 → j ≠ 9 →
              cellVal st2 r j = cellVal store r j)) := by
  constructor
  · constructor
    · intro h
      have hn : wsFind0 q store = none := by
        cases hw : wsFind0 q store with
        | none => rfl
        | some rc =>
          unfold actFormUpdate at h
          rw [hw] at h
          simp at h
      exact (wsFind0_none_spec q store).mp hn
    · intro hall
      unfold actFormUpdate
      rw [(wsFind0_none_spec q store).mpr hall]
      rfl
  · intro r c hw
    obtain ⟨row, hrow, hcell, hprev, hmin⟩ := wsFind0_some_spec q store r c hw
    obtain ⟨h6, h7, h5, h9, h9e, hrest⟩ := applyRem_cells row atxt adt photo
    refine ⟨row, modifyAt (fun rw2 => applyRemediation rw2 atxt adt photo) r store,
      hrow, hcell, hprev, hmin, ?_, ?_, ?_, ?_, ?_, ?_, ?_, ?_⟩
    · unfold actFormUpdate
      rw [hw]
      rfl
    · intro i j hi
      exact cellVal_modifyAt_other _ r store i j hi
    · rw [cellVal_modifyAt_self _ r store row hrow]
      exact h6
    · rw [cellVal_modifyAt_self _ r store row hrow]
      exact h7
    · rw [cellVal_modifyAt_self _ r store row hrow]
      exact h5
    · intro hne
      rw [cellVal_modifyAt_self _ r store row hrow]
      exact h9 hne
    · intro hpe
      rw [cellVal_modifyAt_self _ r store row hrow]
      rw [show cellVal store r 9 = (row.get? 9).getD "" from by unfold cellVal; rw [hrow]; rfl]
      exact h9e hpe
    · intro j hj5 hj6 hj7 hj9
      rw [cellVal_modifyAt_self _ r store row hrow]
      rw [show cellVal store r j = (row.get? j).getD "" from by unfold cellVal; rw [hrow]; rfl]
      exact hrest j hj5 hj6 hj7 hj9

theorem c5_remediation_update_witness :
    ∃ st2, actFormUpdate storeC5w "1700000000" "수리" "2024-02-02" "PHOTO123" = some st2
      ∧ cellVal st2 1 6 = "수리" ∧ cellVal st2 1 7 = "2024-02-02"
      ∧ cellVal st2 1 5 = "완료" ∧ cellVal st2 1 9 = "PHOTO123"
      ∧ cellVal st2 0 0 = cellVal storeC5w 0 0
      ∧ cellVal st2 1 0 = cellVal storeC5w 1 0 := by
  obtain ⟨row, st2, hrow, hcell, hprev, hmin, hupd, hother, h6, h7, h5, h9, h9e, hrest⟩ :=
    (c5_remediation_update storeC5w "1700000000" "수리" "2024-02-02" "PHOTO123").2 1 0
      (by decide)
  exact ⟨st2, hupd, h6, h7, h5, h9 (by decide), hother 0 0 (by omega),
    hrest 0 (by omega) (by omega) (by omega) (by omega)⟩

/-! ### Claims about extract_drive_file_id -/

theorem chBefore_single_absorb (c : Char) (tail : List Char) :
    ∀ u : List Char, chBefore [c] (chBefore (c :: tail) u) = chBefore [c] u := by
  intro u
  induction u with
  | nil => rfl
  | cons b bs ih =>
    by_cases hp : chPfx (c :: tail) (b :: bs) = true
    · have hcb : (c == b) = true := by
        have hand : (c == b && chPfx tail bs) = true := hp
        exact (Bool.and_eq_true _ _).mp hand |>.1
      have h1 : chPfx [c] (b :: bs) = true := by simp [chPfx, hcb]
      rw [show chBefore (c :: tail) (b :: bs) = [] from by simp [chBefore, hp]]
      rw [show chBefore [c] (b :: bs) = [] from by simp [chBefore, h1]]
      rfl
    · rw [show chBefore (c :: tail) (b :: bs) = b :: chBefore (c :: tail) bs from
        by simp [chBefore, hp]]
      by_cases hcb : (c == b) = true
      · have h1 : chPfx [c] (b :: bs) = true := by simp [chPfx, hcb]
        have h2 : chPfx [c] (b :: chBefore (c :: tail) bs) = true := by simp [chPfx, hcb]
        rw [show chBefore [c] (b :: chBefore (c :: tail) bs) = [] from by
          simp [chBefore, h2]]
        rw [show chBefore [c] (b :: bs) = [] from by simp [chBefore, h1]]
      · have h1 : chPfx [c] (b :: bs) = false := by
          simp [chPfx]
          simpa using hcb
        have h2 : chPfx [c] (b :: chBefore (c :: tail) bs) = false := by
          simp [chPfx]
          simpa using hcb
        rw [show chBefore [c] (b :: chBefore (c :: tail) bs)
            = b :: chBefore [c] (chBefore (c :: tail) bs) from by simp [chBefore, h2]]
        rw [show chBefore [c] (b :: bs) = b :: chBefore [c] bs from by
          simp [chBefore, h1]]
        rw [ih]

/-- C9 counterexample: for a link in which id= occurs twice before the
ampersand, the code truncates at the second id= (Python split(sep)[1]), not at
the next ampersand as the claim words it. -/
theorem c9_id_truncation_counterexample :
    extract_drive_file_id (.ofStr "drive.google.com?id=ABid=CD&x") = some "AB"
    ∧ specIdCut (sTrim "drive.google.com?id=ABid=CD&x") = "ABid=CD"
    ∧ ("AB" : String) ≠ "ABid=CD" := by
  refine ⟨by decide, by decide, by decide⟩

/-- C9 (amended): extract_drive_file_id returns none for every non-string or
blank/whitespace-only input; it returns the trimmed input verbatim when the
input does not contain drive.google.com, contains no slash and no space, and
has length at least 15, and none for other drive-free inputs (in particular
bare identifiers shorter than 15); for inputs containing drive.google.com it
returns the substring between /d/ and the next slash when /d/ is present,
otherwise the substring after id= truncated at the next id= or ampersand
(Python split semantics) when id= is present, otherwise none. -/
theorem c9_extract_characterization :
    (extract_drive_file_id .nonStr = none)
    ∧ (∀ s, (sTrim s).data = [] → extract_drive_file_id (.ofStr s) = none)
    ∧ (∀ s, (sTrim s).data ≠ [] →
        strHas (sTrim s) "drive.google.com" = false →
        strHas (sTrim s) "/" = false → strHas (sTrim s) " " = false →
        15 ≤ (sTrim s).data.length →
        extract_drive_file_id (.ofStr s) = some (sTrim s))
    ∧ (∀ s, strHas (sTrim s) "drive.google.com" = false →
        ¬(strHas (sTrim s) "/" = false ∧ strHas (sTrim s) " " = false
            ∧ 15 ≤ (sTrim s).data.length) →
        extract_drive_file_id (.ofStr s) = none)
    ∧ (∀ s, strHas (sTrim s) "drive.google.com" = true →
        strHas (sTrim s) "/d/" = true →
        extract_drive_file_id (.ofStr s)
          = some (beforeFirst "/" (afterFirst "/d/" (sTrim s))))
    ∧ (∀ s, strHas (sTrim s) "drive.google.com" = true →
        strHas (sTrim s) "/d/" = false → strHas (sTrim s) "id=" = true →
        extract_drive_file_id (.ofStr s)
          = some (beforeFirst "&" (pyBetween "id=" (sTrim s))))
    ∧ (∀ s, strHas (sTrim s) "drive.google.com" = true →
        strHas (sTrim s) "/d/" = false → strHas (sTrim s) "id=" = false →
        extract_drive_file_id (.ofStr s) = none) := by
  refine ⟨rfl, ?_, ?_, ?_, ?_, ?_, ?_⟩
  · intro s h
    simp [extract_drive_file_id, h]
  · intro s h0 h1 h2 h3 h4
    simp [extract_drive_file_id, h0, h1, h2, h3, h4]
    exact h4
  · intro s h1 h2
    rcases Decidable.not_and_iff_or_not.mp h2 with h | h
    · have hs : strHas (sTrim s) "/" = true := by
        revert h
        cases strHas (sTrim s) "/" <;> simp
      simp [extract_drive_file_id, h1, hs]
    · rcases Decidable.not_and_iff_or_not.mp h with h | h
      · have hs : strHas (sTrim s) " " = true := by
          revert h
          cases strHas (sTrim s) " " <;> simp
        simp [extract_drive_file_id, h1, hs]
      · have hlen : ¬15 ≤ (sTrim s).data.length := h
        simp [extract_drive_file_id, h1, hlen]
        intro _ _ _
        have h15 : ¬15 ≤ (sTrim s).length := hlen
        omega
  · intro s h1 h2
    have hne : (sTrim s).data ≠ [] := by
      intro hz
      rw [show sTrim s = ("" : String) from by
        have := congrArg (fun l => (⟨l⟩ : String)) hz
        simpa using this] at h1
      simp [strHas, chSub] at h1
    have habs : beforeFirst "/" (pyBetween "/d/" (sTrim s))
        = beforeFirst "/" (afterFirst "/d/" (sTrim s)) := by
      unfold pyBetween beforeFirst afterFirst
      have hlists := chBefore_single_absorb '/' ['d', '/'] (chAfter "/d/".data (sTrim s).data)
      exact congrArg (fun l => ({ data := l } : String)) hlists
    simp [extract_drive_file_id, h1, h2, hne, ← habs]
  · intro s h1 h2 h3
    have hne : (sTrim s).data ≠ [] := by
      intro hz
      rw [show sTrim s = ("" : String) from by
        have := congrArg (fun l => (⟨l⟩ : String)) hz
        simpa using this] at h1
      simp [strHas, chSub] at h1
    simp [extract_drive_file_id, h1, h2, h3, hne]
  · intro s h1 h2 h3
    have hne : (sTrim s).data ≠ [] := by
      intro hz
      rw [show sTrim s = ("" : String) from by
        have := congrArg (fun l => (⟨l⟩ : String)) hz
        simpa using this] at h1
      simp [strHas, chSub] at h1
    simp [extract_drive_file_id, h1, h2, h3, hne]

theorem c9_extract_characterization_witness :
    extract_drive_file_id (.ofStr "ABCDEFGHIJKLMNO") = some "ABCDEFGHIJKLMNO"
    ∧ extract_drive_file_id (.ofStr "ABC") = none
    ∧ extract_drive_file_id (.ofStr "https://drive.google.com/file/d/FILE123/view")
      = some "FILE123"
    ∧ extract_drive_file_id (.ofStr "  ") = none := by
  obtain ⟨h0, hblank, hbare, hshort, hd, hid, hnone⟩ := c9_extract_characterization
  refine ⟨?_, ?_, ?_, ?_⟩
  · rw [hbare "ABCDEFGHIJKLMNO" (by decide) (by decide) (by decide) (by decide) (by decide)]
    decide
  · exact hshort "ABC" (by decide) (by decide)
  · rw [hd "https://drive.google.com/file/d/FILE123/view" (by decide) (by decide)]
    decide
  · exact hblank "  " (by decide)

/-! ### Claims about the read path -/

/-- C10: the read path assigns the 1900-01-01 sentinel (hence Year 1900,
Month 1) to every stored record whose InspectionDate text is missing or
unparseable, keeping the record in the loaded dataset, and excludes exactly
the records whose issue text is blank after trimming. -/
theorem c10_sentinel_date (rs : List Record) (r : Record) (hr : r ∈ rs) :
    (sTrim r.issue = "" → ∀ e ∈ load_data rs, e.stored ≠ r)
    ∧ (sTrim r.issue ≠ "" → enrichRow r ∈ load_data rs)
    ∧ (pdParseYmd (sTrim (replaceDots r.insDate)) = none →
        (enrichRow r).date = sentinel
          ∧ ((enrichRow r).date).y = 1900 ∧ ((enrichRow r).date).m = 1) := by
  refine ⟨?_, ?_, ?_⟩
  · intro hblank e he hcontra
    have hmem := List.mem_filter.mp he
    have hne : sTrim e.stored.issue ≠ "" := by simpa using hmem.2
    rw [hcontra] at hne
    exact hne hblank
  · intro hnb
    refine List.mem_filter.mpr ⟨List.mem_map_of_mem enrichRow hr, ?_⟩
    simpa using hnb
  · intro hp
    have hd : (enrichRow r).date = sentinel := by
      show (pdParseYmd (sTrim (replaceDots r.insDate))).getD sentinel = sentinel
      rw [hp]
      rfl
    exact ⟨hd, by rw [hd]; rfl, by rw [hd]; rfl⟩

theorem c10_sentinel_date_witness :
    (∀ e ∈ load_data recsC10, e.stored ≠ recBlank)
    ∧ enrichRow recBadDate ∈ load_data recsC10
    ∧ ((enrichRow recBadDate).date).y = 1900 ∧ ((enrichRow recBadDate).date).m = 1 := by
  obtain ⟨hex, _, _⟩ := c10_sentinel_date recsC10 recBlank (by decide)
  obtain ⟨_, hkeep, hsent⟩ := c10_sentinel_date recsC10 recBadDate (by decide)
  obtain ⟨_, hy, hm⟩ := hsent (by decide)
  exact ⟨hex (by decide), hkeep (by decide), hy, hm⟩

/-! ### The header locator -/

/-- C1 (code bug): the initial read consumes the first file row as the pandas
default header, so the header scan never examines it, and the re-read with
header equal to the scan index makes the row above the matched row the labels.
A file whose first row is the header (containing both markers) yields
HeaderNotFound, and a file with a title row above the header row takes the
title row as labels and aborts with the required-column error instead of
running the import — against the claim that the matched row becomes the labels
and that all rows are scanned from the first. -/
theorem c1_header_locator_bug :
    rowMatches ((rowsC1a.get? 0).getD []) = true
    ∧ process_and_upload 0 rowsC1a storeC1 = (.headerNotFound, storeC1)
    ∧ rowMatches ((rowsC1b.get? 1).getD []) = true
    ∧ process_and_upload 0 rowsC1b storeC1
      = (.requiredColumnMissing requiredColsMsg, storeC1) := by
  refine ⟨?_, ?_, ?_, ?_⟩ <;> decide

end Haccp
